import Mathlib

/-!
Verification of the scriptAssist task service core: the task mutation
coordinator (create / update / remove / batchProcessTasks in
src/modules/tasks/tasks.service.ts), its filter and query builder
(findAll), and the TTL cache component (src/common/services/cache.service.ts).

The TypeScript source is shallowly embedded: the relational store is a list
of task rows, the queue is the list of enqueued events, transactional
control flow is captured as an explicit action trace, and JavaScript values
stored in the cache are an inductive JSValue type with the
JSON.parse(JSON.stringify(.)) copy modelled explicitly.
-/

namespace ScriptAssist

/-- Task status enum (src/modules/tasks/enums/task-status.enum), with the
members referenced by the service code. -/
inductive TaskStatus where
  | PENDING
  | IN_PROGRESS
  | COMPLETED
  deriving DecidableEq, Repr

/-- Task priority enum (src/modules/tasks/enums/task-priority.enum), with the
members referenced by the repository code. -/
inductive TaskPriority where
  | LOW
  | MEDIUM
  | HIGH
  deriving DecidableEq, Repr

/-- A task row (src/modules/tasks/entities/task.entity): id, title,
description, status, priority, owning user reference, createdAt timestamp
(modelled as a Nat epoch value). -/
structure Task where
  id : String
  title : String
  description : String
  status : TaskStatus
  priority : TaskPriority
  userId : String
  createdAt : Nat
  deriving DecidableEq, Repr

/-- An event enqueued on the bullmq task-processing queue via
taskQueue.add(name, payload) where the payload carries taskId and status. -/
structure QueueEvent where
  name : String
  taskId : String
  status : TaskStatus
  deriving DecidableEq, Repr

/-- An opaque store error raised by tasksRepository.save. -/
structure StoreErr where
  msg : String
  deriving DecidableEq, Repr

/-- One observable step of the create method's body: queryRunner.connect,
queryRunner.startTransaction, the tasksRepository.save call, a
taskQueue.add call, queryRunner.commitTransaction,
queryRunner.rollbackTransaction. -/
inductive TxAction where
  | connect
  | startTx
  | saveAttempt
  | enqueue (e : QueueEvent)
  | commitTx
  | rollbackTx
  deriving DecidableEq, Repr

namespace TasksService

/-- Embedding of TasksService.create (tasks.service.ts lines 22-43),
parameterised by the outcome of the awaited tasksRepository.save call.
The trace records the method's calls in source order: connect,
startTransaction, the save attempt, then - in the try branch - the
taskQueue.add('task-status-update', {taskId, status}) guarded by
`if (savedTask)` followed by commitTransaction; in the catch branch,
rollbackTransaction followed by re-throwing the error. The first component
is the value returned to (or the error propagated to) the caller. -/
def create (saveResult : Except StoreErr Task) : Except StoreErr Task × List TxAction :=
  match saveResult with
  | .error e =>
      (.error e, [.connect, .startTx, .saveAttempt, .rollbackTx])
  | .ok savedTask =>
      (.ok savedTask,
       [.connect, .startTx, .saveAttempt,
        .enqueue { name := "task-status-update",
                   taskId := savedTask.id, status := savedTask.status },
        .commitTx])

/-- The events enqueued along a trace, in order. -/
def enqueuedEvents : List TxAction → List QueueEvent
  | [] => []
  | .enqueue e :: rest => e :: enqueuedEvents rest
  | _ :: rest => enqueuedEvents rest

/-- Whether an action is a commit. -/
def isCommit : TxAction → Bool
  | .commitTx => true
  | _ => false

/-- Whether an action is a queue enqueue. -/
def isEnqueue : TxAction → Bool
  | .enqueue _ => true
  | _ => false

/-- True when no enqueue action occurs at or after the first commit of the
trace, i.e. every enqueue happens strictly before the unit of work commits. -/
def enqueuesBeforeCommit (tr : List TxAction) : Bool :=
  (tr.dropWhile fun a => !(isCommit a)).all fun a => !(isEnqueue a)

end TasksService

/-- Sort direction accepted by the filter DTO and passed to orderBy. -/
inductive SortOrder where
  | ASC
  | DESC
  deriving DecidableEq, Repr

/-- The filter specification (TaskFilterDto extending PaginationParams):
every field is optional; absent page and limit are defaulted inside
findAll. Date bounds are modelled on the Nat createdAt timestamps. -/
structure TaskFilterDto where
  page : Option Nat := none
  limit : Option Nat := none
  searchQuery : Option String := none
  status : Option TaskStatus := none
  priority : Option TaskPriority := none
  userId : Option String := none
  dateFrom : Option Nat := none
  dateTo : Option Nat := none
  sortingColumn : Option String := none
  sortingOrder : Option SortOrder := none
  deriving Repr

/-- Substring containment on character lists: needle occurs contiguously
inside hay. Models SQL LIKE with a leading and trailing wildcard. -/
def infixOf (needle : List Char) : List Char → Bool
  | [] => needle.isEmpty
  | c :: rest => needle.isPrefixOf (c :: rest) || infixOf needle rest

/-- Substring containment on strings. -/
def strContains (hay sub : String) : Bool :=
  infixOf sub.data hay.data

namespace TasksService

/-- The conjunction of the WHERE conditions findAll appends for the filter
fields present in the payload (tasks.service.ts lines 64-86): equality on
status, priority and userId, LIKE containment of searchQuery in title or
description, and inclusive createdAt bounds. An absent field imposes no
condition. -/
def taskMatches (payload : TaskFilterDto) (t : Task) : Bool :=
  (match payload.status with
   | some s => t.status = s
   | none => true) &&
  (match payload.priority with
   | some p => t.priority = p
   | none => true) &&
  (match payload.userId with
   | some u => t.userId = u
   | none => true) &&
  (match payload.searchQuery with
   | some q => strContains t.title q || strContains t.description q
   | none => true) &&
  (match payload.dateFrom with
   | some d => d ≤ t.createdAt
   | none => true) &&
  (match payload.dateTo with
   | some d => t.createdAt ≤ d
   | none => true)

/-- The column expression findAll hands to orderBy (tasks.service.ts line
89): the template string task.${sortingColumn} when a sorting column is
supplied, the literal task.id otherwise. The caller-supplied string is
spliced in verbatim. -/
def orderByColumn (sortingColumn : Option String) : String :=
  match sortingColumn with
  | some c => "task." ++ c
  | none => "task.id"

/-- The sortable columns of the task entity, i.e. the allow-list the spec
requires a supplied sorting column to be validated against. -/
def sortableTaskColumns : List String :=
  ["id", "title", "description", "status", "priority", "userId", "createdAt"]

/-- Textual value of a task status, as stored in the relational column. -/
def statusText : TaskStatus → String
  | .PENDING => "PENDING"
  | .IN_PROGRESS => "IN_PROGRESS"
  | .COMPLETED => "COMPLETED"

/-- Textual value of a task priority, as stored in the relational column. -/
def priorityText : TaskPriority → String
  | .LOW => "LOW"
  | .MEDIUM => "MEDIUM"
  | .HIGH => "HIGH"

/-- The comparison key ORDER BY task.c uses for each allow-listed column;
any other column name is a store error at query time (no allow-list guards
it, see orderByColumn), which this ordering model collapses to the id key. -/
def taskColumn (c : String) (t : Task) : String :=
  if c = "title" then t.title
  else if c = "description" then t.description
  else if c = "status" then statusText t.status
  else if c = "priority" then priorityText t.priority
  else if c = "userId" then t.userId
  else if c = "createdAt" then toString t.createdAt
  else t.id

/-- The ordering ORDER BY applies to the filtered rows: ascending or
descending in the key of the requested column (task.id when no column is
supplied; the second orderBy argument defaults to ascending when absent). -/
def sortTasks (col : Option String) (ord : SortOrder) (ts : List Task) : List Task :=
  let key := taskColumn (match col with | some c => c | none => "id")
  match ord with
  | .ASC => ts.insertionSort fun a b => key a ≤ key b
  | .DESC => ts.insertionSort fun a b => key b ≤ key a

/-- The pair returned by findAll: the requested page and the total count. -/
structure FindAllResult where
  tasks : List Task
  count : Nat
  deriving Repr

/-- Embedding of TasksService.findAll (tasks.service.ts lines 45-95) over a
store holding the list of persisted task rows: page defaults to 1 and limit
to 10 by destructuring, skip = (page - 1) * limit computed over the
integers, the WHERE conjunction of taskMatches filters the store, ORDER BY
sorts the filtered rows, skip and take cut out the page, and
getManyAndCount returns the page together with the count of all filtered
rows, ignoring skip and take. -/
def findAll (payload : TaskFilterDto) (store : List Task) : FindAllResult :=
  let page := payload.page.getD 1
  let limit := payload.limit.getD 10
  let skip : Int := ((page : Int) - 1) * (limit : Int)
  let filtered := store.filter (taskMatches payload)
  let sorted := sortTasks payload.sortingColumn (payload.sortingOrder.getD .ASC) filtered
  { tasks := (sorted.drop skip.toNat).take limit, count := filtered.length }

/-- Embedding of TasksService.findOne (tasks.service.ts lines 101-109):
the first row whose id matches, or none; absence is a normal return. -/
def findOne (store : List Task) (id : String) : Option Task :=
  store.find? fun t => t.id = id

/-- The partial update DTO: each field is present or absent. -/
structure UpdateTaskDto where
  title : Option String := none
  description : Option String := none
  status : Option TaskStatus := none
  priority : Option TaskPriority := none
  deriving DecidableEq, Repr

/-- Object.assign(task, updateTaskDto): every field present in the DTO
overwrites the task's field; the merged object is the same object as task. -/
def objectAssign (t : Task) (dto : UpdateTaskDto) : Task :=
  { t with
    title := dto.title.getD t.title
    description := dto.description.getD t.description
    status := dto.status.getD t.status
    priority := dto.priority.getD t.priority }

/-- Embedding of TasksService.update (tasks.service.ts lines 111-141),
parameterised by the row findOne reads for the id. On a missing row the
method returns null. Otherwise - faithfully to the source line order -
Object.assign(task, updateTaskDto) merges the patch into the task object
FIRST (line 122), and only then is originalStatus read from that same,
already-merged object (line 123); save returns the merged entity, so the
guard originalStatus !== updatedTaskSave.status compares the merged status
with itself. The second component is the list of events added to the
queue. -/
def update (stored : Option Task) (dto : UpdateTaskDto) : Option Task × List QueueEvent :=
  match stored with
  | none => (none, [])
  | some task =>
      let updatedTask := objectAssign task dto
      let originalStatus := updatedTask.status
      let updatedTaskSave := updatedTask
      if originalStatus ≠ updatedTaskSave.status then
        (some updatedTaskSave,
         [{ name := "task-status-update",
            taskId := updatedTask.id, status := updatedTask.status }])
      else
        (some updatedTaskSave, [])

/-- Embedding of TasksService.remove (tasks.service.ts lines 143-153):
one DELETE by id; when the affected row count is zero a NotFoundException
carrying the id is thrown, otherwise the call returns normally and the
store no longer holds the row. -/
def remove (store : List Task) (id : String) : Except String (List Task) :=
  let affected := (store.filter fun t => t.id = id).length
  if affected = 0 then
    .error ("Task with ID " ++ id ++ " not found")
  else
    .ok (store.filter fun t => !(t.id = id))

/-- The two batch actions the service accepts; the DTO validates the action
against this enumeration, so the trailing throw of batchProcessTasks is
unreachable for typed input. -/
inductive BatchAction where
  | complete
  | delete
  deriving DecidableEq, Repr

/-- The value batchProcessTasks returns together with the resulting store
and the events enqueued: the complete branch reports updated.affected, the
delete branch reports deleted.affected. -/
structure BatchResult where
  store : List Task
  updated : Option Nat := none
  deleted : Option Nat := none
  events : List QueueEvent := []
  deriving Repr

/-- Embedding of TasksService.batchProcessTasks (part_002 lines 169-202).
The complete branch runs one set-based UPDATE setting status = COMPLETED on
the rows whose id is in taskIds and whose status is not already COMPLETED
(`andWhere status != COMPLETED` avoids unnecessary writes), reporting the
affected row count; it then loops over the WHOLE taskIds input list and
enqueues one task-status-update event per listed id. The delete branch
runs one set-based DELETE over the ids, enqueues nothing and reports the
affected row count. -/
def batchProcessTasks (store : List Task) (taskIds : List String) (action : BatchAction) :
    BatchResult :=
  match action with
  | .complete =>
      let hit := fun t : Task => taskIds.contains t.id && !(t.status = TaskStatus.COMPLETED)
      let affected := (store.filter hit).length
      let store2 := store.map fun t =>
        if hit t then { t with status := TaskStatus.COMPLETED } else t
      let events := taskIds.map fun taskId =>
        { name := "task-status-update", taskId := taskId,
          status := TaskStatus.COMPLETED : QueueEvent }
      { store := store2, updated := some affected, events := events }
  | .delete =>
      let affected := (store.filter fun t => taskIds.contains t.id).length
      { store := store.filter fun t => !(taskIds.contains t.id),
        deleted := some affected }

end TasksService

/-- A JavaScript value storable in the cache: undefined, null, booleans,
numbers (integral, which suffices here), strings, arrays and plain objects
with ordered string-keyed fields. -/
inductive JSValue where
  | undef
  | null
  | bool (b : Bool)
  | num (n : Int)
  | str (s : String)
  | arr (xs : List JSValue)
  | obj (fields : List (String × JSValue))

mutual

/-- Model of JSON.parse(JSON.stringify(v)), the deep copy the cache applies
on set and on get: a top-level undefined makes stringify yield undefined
and the subsequent parse throw (none); an undefined array element
serialises as null; an object field whose value serialises to undefined is
dropped. -/
def jsonClean : JSValue → Option JSValue
  | .undef => none
  | .null => some .null
  | .bool b => some (.bool b)
  | .num n => some (.num n)
  | .str s => some (.str s)
  | .arr xs => some (.arr (jsonCleanArr xs))
  | .obj fs => some (.obj (jsonCleanObj fs))

/-- JSON round-trip of the elements of an array: an element that serialises
to undefined becomes null. -/
def jsonCleanArr : List JSValue → List JSValue
  | [] => []
  | x :: rest => ((jsonClean x).getD .null) :: jsonCleanArr rest

/-- JSON round-trip of the fields of an object: a field whose value
serialises to undefined is dropped. -/
def jsonCleanObj : List (String × JSValue) → List (String × JSValue)
  | [] => []
  | (k, v) :: rest =>
      match jsonClean v with
      | none => jsonCleanObj rest
      | some w => (k, w) :: jsonCleanObj rest

end

mutual

/-- Whether a value is JSON-representable as it stands: it contains no
undefined anywhere, so the JSON round-trip preserves it exactly. -/
def jsonSafe : JSValue → Bool
  | .undef => false
  | .null => true
  | .bool _ => true
  | .num _ => true
  | .str _ => true
  | .arr xs => jsonSafeArr xs
  | .obj fs => jsonSafeObj fs

/-- jsonSafe on every element of an array. -/
def jsonSafeArr : List JSValue → Bool
  | [] => true
  | x :: rest => jsonSafe x && jsonSafeArr rest

/-- jsonSafe on every field value of an object. -/
def jsonSafeObj : List (String × JSValue) → Bool
  | [] => true
  | (_, v) :: rest => jsonSafe v && jsonSafeObj rest

end

namespace CacheService

/-- A stored cache entry: the (already deep-copied) value and the absolute
expiry timestamp in milliseconds (cache.service.ts interface CacheItem). -/
structure CacheItem where
  value : JSValue
  expiresAt : Nat

/-- The Map<string, CacheItem> backing the cache, modelled as an
association list; lookups read the first (and only) binding of a key. -/
def CacheMap := List (String × CacheItem)

/-- Map.get: the item bound to the key, if any. -/
def mapGet (m : CacheMap) (k : String) : Option CacheItem :=
  (m.find? fun kv => kv.1 = k).map fun kv => kv.2

/-- Map.delete: removes the binding of the key, if any. -/
def mapDelete (m : CacheMap) (k : String) : CacheMap :=
  m.filter fun kv => !(kv.1 = k)

/-- Map.set: rebinds the key to the item (insertion order of the surviving
bindings is not significant for any lookup). -/
def mapSet (m : CacheMap) (k : String) (it : CacheItem) : CacheMap :=
  (k, it) :: mapDelete m k

/-- The namespace qualification applied to every key
(cache.service.ts namespacedKey, with namespace 'app'). -/
def namespacedKey (key : String) : String :=
  "app:" ++ key

/-- Embedding of CacheService.set (cache.service.ts lines 33-46): an empty
key throws; the value is deep-copied by the JSON round-trip, which itself
throws when the value serialises to undefined (JSON.parse receives
undefined); expiresAt = now + ttlSeconds * 1000; the copy is stored under
the namespaced key. -/
def set (m : CacheMap) (key : String) (value : JSValue) (ttlSeconds : Nat) (now : Nat) :
    Except String CacheMap :=
  if key = "" then
    .error "Invalid cache key"
  else
    match jsonClean value with
    | none => .error "SyntaxError"
    | some safeValue =>
        .ok (mapSet m (namespacedKey key)
              { value := safeValue, expiresAt := now + ttlSeconds * 1000 })

/-- Embedding of CacheService.get (cache.service.ts lines 49-68): a missing
entry returns null; an entry with expiresAt < now is deleted and null is
returned; otherwise the JSON round-trip of the stored value is returned
(stored values come from set, so this second round-trip cannot throw). -/
def get (m : CacheMap) (key : String) (now : Nat) : Option JSValue × CacheMap :=
  match mapGet m (namespacedKey key) with
  | none => (none, m)
  | some item =>
      if item.expiresAt < now then
        (none, mapDelete m (namespacedKey key))
      else
        (jsonClean item.value, m)

/-- Embedding of CacheService.has (cache.service.ts lines 91-99): when the
entry is missing or its expiresAt is in the past, the (possibly absent)
binding is deleted and false is returned; otherwise true, with no state
change. -/
def has (m : CacheMap) (key : String) (now : Nat) : Bool × CacheMap :=
  match mapGet m (namespacedKey key) with
  | none => (false, mapDelete m (namespacedKey key))
  | some item =>
      if item.expiresAt < now then
        (false, mapDelete m (namespacedKey key))
      else
        (true, m)

/-- Embedding of CacheService.cleanupExpired (cache.service.ts lines
101-109): the periodic sweep removes every entry whose expiresAt is in the
past. -/
def cleanupExpired (m : CacheMap) (now : Nat) : CacheMap :=
  m.filter fun kv => !(kv.2.expiresAt < now)

end CacheService

/-- A concrete pending task used to instantiate the theorems. -/
def exTask1 : Task :=
  { id := "t1", title := "write report", description := "quarterly report",
    status := .PENDING, priority := .HIGH, userId := "u1", createdAt := 100 }

/-- A concrete task that is already completed. -/
def exTask2 : Task :=
  { id := "t2", title := "file taxes", description := "annual filing",
    status := .COMPLETED, priority := .MEDIUM, userId := "u1", createdAt := 200 }

/-- A concrete in-progress task. -/
def exTask3 : Task :=
  { id := "t3", title := "clean desk", description := "tidy up",
    status := .IN_PROGRESS, priority := .LOW, userId := "u2", createdAt := 300 }

/-- A concrete three-row store. -/
def exStore3 : List Task := [exTask1, exTask2, exTask3]

/-- A concrete store failure. -/
def exErr : StoreErr := { msg := "connection reset during save" }

end ScriptAssist

namespace ScriptAssist

/-- C1: for every create(input) call, if the save raises then the
transaction is rolled back, no task-status-update event is enqueued and the
error propagates to the caller; if the save succeeds, exactly one
task-status-update event carrying the new task's id and status is enqueued,
and it is enqueued strictly before the unit of work commits (and no
rollback occurs). -/
theorem create_rolls_back_or_enqueues_once (saveResult : Except StoreErr Task) :
    (∀ e, saveResult = .error e →
      (TasksService.create saveResult).1 = .error e ∧
      TxAction.rollbackTx ∈ (TasksService.create saveResult).2 ∧
      TxAction.commitTx ∉ (TasksService.create saveResult).2 ∧
      TasksService.enqueuedEvents (TasksService.create saveResult).2 = []) ∧
    (∀ t, saveResult = .ok t →
      (TasksService.create saveResult).1 = .ok t ∧
      TasksService.enqueuedEvents (TasksService.create saveResult).2 =
        [{ name := "task-status-update", taskId := t.id, status := t.status }] ∧
      TxAction.commitTx ∈ (TasksService.create saveResult).2 ∧
      TxAction.rollbackTx ∉ (TasksService.create saveResult).2 ∧
      TasksService.enqueuesBeforeCommit (TasksService.create saveResult).2 = true) := by
  constructor
  · intro e he
    subst he
    refine ⟨rfl, ?_, ?_, rfl⟩
    · simp [TasksService.create]
    · simp [TasksService.create]
  · intro t ht
    subst ht
    refine ⟨rfl, rfl, ?_, ?_, ?_⟩
    · simp [TasksService.create]
    · simp [TasksService.create]
    · rfl

/-- Witness for C1: instantiates the theorem at a concrete successful save
and at a concrete failing save. -/
theorem create_rolls_back_or_enqueues_once_witness :
    ((TasksService.create (.ok exTask1)).1 = .ok exTask1 ∧
      TasksService.enqueuedEvents (TasksService.create (.ok exTask1)).2 =
        [{ name := "task-status-update", taskId := exTask1.id, status := exTask1.status }] ∧
      TxAction.commitTx ∈ (TasksService.create (.ok exTask1)).2 ∧
      TxAction.rollbackTx ∉ (TasksService.create (.ok exTask1)).2 ∧
      TasksService.enqueuesBeforeCommit (TasksService.create (.ok exTask1)).2 = true) ∧
    ((TasksService.create (.error exErr)).1 = .error exErr ∧
      TxAction.rollbackTx ∈ (TasksService.create (.error exErr)).2 ∧
      TxAction.commitTx ∉ (TasksService.create (.error exErr)).2 ∧
      TasksService.enqueuedEvents (TasksService.create (.error exErr)).2 = []) :=
  ⟨(create_rolls_back_or_enqueues_once (.ok exTask1)).2 exTask1 rfl,
   (create_rolls_back_or_enqueues_once (.error exErr)).1 exErr rfl⟩

/-- C2: the claim says update(id, patch) enqueues a status-update event iff
the merged status differs from the status read before the merge. The code
reads originalStatus only AFTER Object.assign has already merged the patch
into the task object, so the comparison always relates the merged status to
itself and no event is ever enqueued - here evaluated at a PENDING task
patched to COMPLETED, which persists the change yet enqueues nothing,
against both the claim and the code's own comment. The second conjunct
shows the event list is empty for every input. -/
theorem update_changed_status_enqueues_no_event :
    (exTask1.status = TaskStatus.PENDING ∧
      TasksService.update (some exTask1) { status := some .COMPLETED } =
        (some { exTask1 with status := .COMPLETED }, [])) ∧
    ∀ stored dto, (TasksService.update stored dto).2 = [] := by
  refine ⟨⟨rfl, rfl⟩, ?_⟩
  intro stored dto
  cases stored with
  | none => rfl
  | some task => simp [TasksService.update]

/-- C4: the claim says findAll validates a supplied sorting column against
an allow-list of sortable fields and never interpolates an unlisted column
into the query string. The code has no allow-list: the caller-supplied
column is spliced verbatim into the ORDER BY expression, here evaluated at
a string that is not a sortable task column. -/
theorem findAll_interpolates_unlisted_sort_column :
    TasksService.orderByColumn (some "status); DROP TABLE task; --") =
      "task.status); DROP TABLE task; --" ∧
    "status); DROP TABLE task; --" ∉ TasksService.sortableTaskColumns := by
  exact ⟨rfl, by decide⟩

/-- C5: for every filter specification and store, findAll computes the
offset as (page - 1) * limit with page defaulting to 1 and limit to 10,
returns at most limit tasks, drawn from the rows satisfying the conjunction
of the present filters in the requested sort order, and returns as count
the size of the whole filtered set rather than the page. -/
theorem findAll_count_page_and_order (payload : TaskFilterDto) (store : List Task) :
    (TasksService.findAll payload store).count =
      (store.filter (TasksService.taskMatches payload)).length ∧
    (TasksService.findAll payload store).tasks.length ≤ payload.limit.getD 10 ∧
    (TasksService.findAll payload store).tasks =
      ((TasksService.sortTasks payload.sortingColumn (payload.sortingOrder.getD .ASC)
          (store.filter (TasksService.taskMatches payload))).drop
        ((((payload.page.getD 1 : Int) - 1) * ((payload.limit.getD 10 : Nat) : Int)).toNat)).take
        (payload.limit.getD 10) := by
  refine ⟨rfl, ?_, rfl⟩
  exact List.length_take_le _ _

/-- An id is found in a store exactly when some row carries it; stated via
the filter the remove embedding uses. -/
theorem findOne_none_iff_filter_nil (store : List Task) (id : String) :
    TasksService.findOne store id = none ↔
      (store.filter fun t => t.id = id) = [] := by
  simp [TasksService.findOne, List.find?_eq_none, List.filter_eq_nil_iff]

/-- After filtering out an id, findOne no longer sees it. -/
theorem findOne_filter_out (store : List Task) (id : String) :
    TasksService.findOne (store.filter fun t => !(t.id = id)) id = none := by
  simp [TasksService.findOne, List.find?_eq_none, List.mem_filter]

/-- C6: remove(id) raises the not-found error exactly when the delete
affected zero rows, i.e. when no row carries the id; when the id exists the
call returns normally and findOne on the resulting store returns absent. -/
theorem remove_raises_iff_id_missing (store : List Task) (id : String) :
    ((∃ msg, TasksService.remove store id = Except.error msg) ↔
      TasksService.findOne store id = none) ∧
    (∀ store2, TasksService.remove store id = Except.ok store2 →
      TasksService.findOne store2 id = none) := by
  constructor
  · constructor
    · rintro ⟨msg, hrem⟩
      simp only [TasksService.remove] at hrem
      split at hrem
      · rename_i hzero
        exact (findOne_none_iff_filter_nil store id).mpr (List.length_eq_zero.mp hzero)
      · cases hrem
    · intro hnone
      refine ⟨"Task with ID " ++ id ++ " not found", ?_⟩
      simp only [TasksService.remove]
      rw [if_pos]
      exact List.length_eq_zero.mpr ((findOne_none_iff_filter_nil store id).mp hnone)
  · intro store2 hrem
    simp only [TasksService.remove] at hrem
    split at hrem
    · cases hrem
    · cases hrem
      exact findOne_filter_out store id

/-- Witness for C6: on a singleton store, remove of the present id returns
normally and findOne on the result is absent; remove of an absent id
errors. -/
theorem remove_raises_iff_id_missing_witness :
    TasksService.findOne ([] : List Task) "t1" = none ∧
    (∃ msg, TasksService.remove exStore3 "zz" = Except.error msg) := by
  constructor
  · exact (remove_raises_iff_id_missing [exTask1] "t1").2 [] rfl
  · exact (remove_raises_iff_id_missing exStore3 "zz").1.mpr (by decide)

/-- Counterexample to C3: on a store with a PENDING, a COMPLETED and an
IN_PROGRESS task, batch-completing all three ids returns updated = 2 as the
claim states, but the event loop runs over the whole input list: an event
for the already-COMPLETED id t2 is enqueued as well, and three events are
enqueued in total where the claim allows exactly two. -/
theorem batchComplete_enqueues_for_already_completed_id :
    exTask2.status = TaskStatus.COMPLETED ∧ exTask2 ∈ exStore3 ∧
    (TasksService.batchProcessTasks exStore3 ["t1", "t2", "t3"] .complete).updated = some 2 ∧
    ({ name := "task-status-update", taskId := "t2", status := TaskStatus.COMPLETED
        : QueueEvent } ∈
      (TasksService.batchProcessTasks exStore3 ["t1", "t2", "t3"] .complete).events) ∧
    (TasksService.batchProcessTasks exStore3 ["t1", "t2", "t3"] .complete).events.length = 3 := by
  refine ⟨rfl, by decide, rfl, by decide, rfl⟩

/-- C3 as amended: the set-based update rewrites exactly the rows whose id
is listed and whose status is not already COMPLETED and reports their
number as the updated count, but the event fan-out enqueues one
status-update event per id of the input list, regardless of whether that id
was affected, was already COMPLETED, or does not exist. -/
theorem batchComplete_updates_and_fans_out_all_ids
    (store : List Task) (taskIds : List String) :
    (TasksService.batchProcessTasks store taskIds .complete).events =
      taskIds.map (fun i =>
        { name := "task-status-update", taskId := i, status := TaskStatus.COMPLETED }) ∧
    (TasksService.batchProcessTasks store taskIds .complete).updated =
      some ((store.filter fun t =>
        taskIds.contains t.id && !(t.status = TaskStatus.COMPLETED)).length) ∧
    (∀ t ∈ store, ¬(t.id ∈ taskIds ∧ t.status ≠ TaskStatus.COMPLETED) →
      t ∈ (TasksService.batchProcessTasks store taskIds .complete).store) ∧
    (∀ t ∈ store, t.id ∈ taskIds → t.status ≠ TaskStatus.COMPLETED →
      { t with status := TaskStatus.COMPLETED } ∈
        (TasksService.batchProcessTasks store taskIds .complete).store) := by
  refine ⟨rfl, rfl, ?_, ?_⟩
  · intro t ht hcond
    simp only [TasksService.batchProcessTasks]
    refine List.mem_map.mpr ⟨t, ht, ?_⟩
    rw [if_neg]
    simp only [Bool.and_eq_true, List.contains_iff_exists_mem_beq, Bool.not_eq_true',
      decide_eq_false_iff_not]
    intro hc
    exact hcond ⟨by obtain ⟨a, ha, hb⟩ := hc.1; exact (beq_iff_eq.mp hb ▸ ha), hc.2⟩
  · intro t ht hid hstat
    simp only [TasksService.batchProcessTasks]
    refine List.mem_map.mpr ⟨t, ht, ?_⟩
    rw [if_pos]
    simp only [Bool.and_eq_true, List.contains_iff_exists_mem_beq, Bool.not_eq_true',
      decide_eq_false_iff_not]
    exact ⟨⟨t.id, hid, beq_self_eq_true t.id⟩, hstat⟩

/-- Witness for C3's amended theorem: on the concrete three-row store, the
already-COMPLETED row survives unchanged and the PENDING row reappears with
status COMPLETED. -/
theorem batchComplete_updates_and_fans_out_all_ids_witness :
    exTask2 ∈ (TasksService.batchProcessTasks exStore3 ["t1", "t2", "t3"] .complete).store ∧
    { exTask1 with status := TaskStatus.COMPLETED } ∈
      (TasksService.batchProcessTasks exStore3 ["t1", "t2", "t3"] .complete).store := by
  constructor
  · exact (batchComplete_updates_and_fans_out_all_ids exStore3 ["t1", "t2", "t3"]).2.2.1
      exTask2 (by decide) (by decide)
  · exact (batchComplete_updates_and_fans_out_all_ids exStore3 ["t1", "t2", "t3"]).2.2.2
      exTask1 (by decide) (by decide) (by decide)

/-- Counting rows by a predicate on ids equals counting their ids. -/
theorem length_filter_by_id (store : List Task) (p : String → Bool) :
    (store.filter fun t => p t.id).length = ((store.map Task.id).filter p).length := by
  induction store with
  | nil => rfl
  | cons t rest ih => by_cases h : p t.id <;> simp [List.filter_cons, h, ih]

/-- C7: batchProcess(ids, delete) returns normally for any id list: it
enqueues no events, removes exactly the rows whose id is listed, and - on a
store whose rows carry pairwise distinct ids, the primary-key invariant -
reports as deleted count the number of distinct requested ids that actually
existed in the store. -/
theorem batchDelete_counts_existing_ids (store : List Task) (taskIds : List String)
    (hnodup : (store.map Task.id).Nodup) :
    (TasksService.batchProcessTasks store taskIds .delete).events = [] ∧
    (TasksService.batchProcessTasks store taskIds .delete).store =
      (store.filter fun t => !(taskIds.contains t.id)) ∧
    (TasksService.batchProcessTasks store taskIds .delete).deleted =
      some ((taskIds.toFinset ∩ (store.map Task.id).toFinset).card) := by
  refine ⟨rfl, rfl, ?_⟩
  show some ((store.filter fun t => taskIds.contains t.id).length) = _
  congr 1
  rw [length_filter_by_id store (fun i => taskIds.contains i)]
  have h2 : ((store.map Task.id).filter fun i => taskIds.contains i).Nodup :=
    hnodup.filter _
  rw [← List.toFinset_card_of_nodup h2]
  congr 1
  ext a
  simp [List.mem_filter, List.contains_iff_exists_mem_beq, and_comm]

/-- Witness for C7: deleting ids t1 and a nonexistent id zz from the
three-row store enqueues nothing and reports one deleted row. -/
theorem batchDelete_counts_existing_ids_witness :
    (TasksService.batchProcessTasks exStore3 ["t1", "zz"] .delete).events = [] ∧
    (TasksService.batchProcessTasks exStore3 ["t1", "zz"] .delete).deleted = some 1 := by
  have h := batchDelete_counts_existing_ids exStore3 ["t1", "zz"] (by decide)
  exact ⟨h.1, h.2.2.trans (by decide)⟩

/-- Deleting a key from the cache map makes its lookup absent. -/
theorem mapGet_mapDelete (m : CacheService.CacheMap) (k : String) :
    CacheService.mapGet (CacheService.mapDelete m k) k = none := by
  simp [CacheService.mapGet, CacheService.mapDelete, List.find?_eq_none, List.mem_filter]

/-- Setting a key in the cache map makes its lookup return the new item. -/
theorem mapGet_mapSet_self (m : CacheService.CacheMap) (k : String)
    (it : CacheService.CacheItem) :
    CacheService.mapGet (CacheService.mapSet m k it) k = some it := by
  simp only [CacheService.mapGet, CacheService.mapSet]
  rw [List.find?_cons_of_pos]
  · rfl
  · simp

mutual

/-- A value with no undefined anywhere survives the JSON round-trip. -/
theorem jsonClean_of_safe (v : JSValue) (h : jsonSafe v = true) :
    jsonClean v = some v := by
  cases v with
  | undef => simp [jsonSafe] at h
  | null => rfl
  | bool b => rfl
  | num n => rfl
  | str s => rfl
  | arr xs =>
      have h2 : jsonSafeArr xs = true := by simpa [jsonSafe] using h
      simp [jsonClean, jsonCleanArr_of_safe xs h2]
  | obj fs =>
      have h2 : jsonSafeObj fs = true := by simpa [jsonSafe] using h
      simp [jsonClean, jsonCleanObj_of_safe fs h2]

/-- Arrays of safe elements survive the JSON round-trip elementwise. -/
theorem jsonCleanArr_of_safe (xs : List JSValue) (h : jsonSafeArr xs = true) :
    jsonCleanArr xs = xs := by
  cases xs with
  | nil => rfl
  | cons x rest =>
      have hx : jsonSafe x = true ∧ jsonSafeArr rest = true := by
        simpa [jsonSafeArr, Bool.and_eq_true] using h
      simp [jsonCleanArr, jsonClean_of_safe x hx.1, jsonCleanArr_of_safe rest hx.2]

/-- Objects whose field values are safe survive the JSON round-trip
fieldwise. -/
theorem jsonCleanObj_of_safe (fs : List (String × JSValue)) (h : jsonSafeObj fs = true) :
    jsonCleanObj fs = fs := by
  cases fs with
  | nil => rfl
  | cons kv rest =>
      obtain ⟨k, v⟩ := kv
      have hx : jsonSafe v = true ∧ jsonSafeObj rest = true := by
        simpa [jsonSafeObj, Bool.and_eq_true] using h
      simp [jsonCleanObj, jsonClean_of_safe v hx.1, jsonCleanObj_of_safe rest hx.2]

end

/-- C8: a key never set is absent through get; an entry whose expiry
timestamp is in the past is absent through get, which also removes it; has
applies the same check, returns false for a missing or expired entry and
also removes an expired entry, so an elapsed TTL is observable through
neither get nor has. -/
theorem cache_expired_entry_unobservable (m : CacheService.CacheMap) (key : String) (now : Nat) :
    (CacheService.mapGet m (CacheService.namespacedKey key) = none →
      CacheService.get m key now = (none, m) ∧
      (CacheService.has m key now).1 = false) ∧
    (∀ item, CacheService.mapGet m (CacheService.namespacedKey key) = some item →
      item.expiresAt < now →
      (CacheService.get m key now).1 = none ∧
      CacheService.mapGet (CacheService.get m key now).2
        (CacheService.namespacedKey key) = none ∧
      (CacheService.has m key now).1 = false ∧
      CacheService.mapGet (CacheService.has m key now).2
        (CacheService.namespacedKey key) = none) := by
  constructor
  · intro h
    constructor
    · simp [CacheService.get, h]
    · simp [CacheService.has, h]
  · intro item h hexp
    refine ⟨?_, ?_, ?_, ?_⟩
    · simp [CacheService.get, h, hexp]
    · simp [CacheService.get, h, hexp, mapGet_mapDelete]
    · simp [CacheService.has, h, hexp]
    · simp [CacheService.has, h, hexp, mapGet_mapDelete]

/-- Witness for C8: a concrete entry that expired at time 5, observed at
time 10, is invisible to get and has, and both remove it; an unset key is
absent. -/
theorem cache_expired_entry_unobservable_witness :
    ((CacheService.get [("app:k", { value := JSValue.num 1, expiresAt := 5 })] "k" 10).1 =
        none ∧
      CacheService.mapGet
        (CacheService.get [("app:k", { value := JSValue.num 1, expiresAt := 5 })] "k" 10).2
        (CacheService.namespacedKey "k") = none ∧
      (CacheService.has [("app:k", { value := JSValue.num 1, expiresAt := 5 })] "k" 10).1 =
        false ∧
      CacheService.mapGet
        (CacheService.has [("app:k", { value := JSValue.num 1, expiresAt := 5 })] "k" 10).2
        (CacheService.namespacedKey "k") = none) ∧
    (CacheService.get ([] : CacheService.CacheMap) "k" 10 =
        (none, ([] : CacheService.CacheMap)) ∧
      (CacheService.has ([] : CacheService.CacheMap) "k" 10).1 = false) := by
  constructor
  · exact (cache_expired_entry_unobservable
      [("app:k", { value := JSValue.num 1, expiresAt := 5 })] "k" 10).2
      { value := JSValue.num 1, expiresAt := 5 } rfl (by decide)
  · exact (cache_expired_entry_unobservable ([] : CacheService.CacheMap) "k" 10).1 rfl

/-- Counterexample to C9: the claim quantifies over every value, but for
the array [undefined] the deep copy is a JSON round-trip that turns the
undefined element into null: set stores [null], get before expiry returns
[null], and [null] is not structurally equal to the [undefined] that was
set. -/
theorem cache_set_get_changes_undef_element :
    CacheService.set [] "k" (JSValue.arr [JSValue.undef]) 300 0 =
      Except.ok [(CacheService.namespacedKey "k",
        { value := JSValue.arr [JSValue.null], expiresAt := 300000 })] ∧
    (CacheService.get [(CacheService.namespacedKey "k",
        { value := JSValue.arr [JSValue.null], expiresAt := 300000 })] "k" 0).1 =
      some (JSValue.arr [JSValue.null]) ∧
    JSValue.arr [JSValue.null] ≠ JSValue.arr [JSValue.undef] := by
  refine ⟨rfl, rfl, ?_⟩
  intro h
  injection h with h1
  injection h1 with h2 h3
  exact JSValue.noConfusion h2

/-- C9 as amended: for every key and every JSON-representable value (one
containing no undefined-valued parts, into which functions and Dates fall),
set followed by get before expiry returns a value structurally equal to the
one set; the stored entry and the returned value are fresh copies produced
by the JSON round-trip, so they never alias the caller's object. -/
theorem cache_set_get_roundtrip_safe (m : CacheService.CacheMap) (key : String)
    (v : JSValue) (ttl now now2 : Nat)
    (hkey : ¬(key = "")) (hsafe : jsonSafe v = true)
    (hfresh : ¬(now + ttl * 1000 < now2)) :
    ∃ m2, CacheService.set m key v ttl now = Except.ok m2 ∧
      (CacheService.get m2 key now2).1 = some v := by
  have hclean : jsonClean v = some v := jsonClean_of_safe v hsafe
  refine ⟨CacheService.mapSet m (CacheService.namespacedKey key)
    { value := v, expiresAt := now + ttl * 1000 }, ?_, ?_⟩
  · simp [CacheService.set, hkey, hclean]
  · simp [CacheService.get, mapGet_mapSet_self, hfresh, hclean]

/-- Witness for C9's amended theorem: the number 7 set at time 0 with a
300-second TTL is returned unchanged by get at time 1000. -/
theorem cache_set_get_roundtrip_safe_witness :
    ∃ m2, CacheService.set [] "k" (JSValue.num 7) 300 0 = Except.ok m2 ∧
      (CacheService.get m2 "k" 1000).1 = some (JSValue.num 7) :=
  cache_set_get_roundtrip_safe [] "k" (JSValue.num 7) 300 0 1000
    (by decide) rfl (by decide)

/-- C10: the cache's deep copy on set and get is a JSON serialization
round-trip, so structural equality is preserved only for JSON-representable
values: for the object with fields a = 1 and b = undefined, get returns an
object from which the undefined-valued field b has been dropped, not
structurally equal to the value passed to set. -/
theorem cache_json_roundtrip_lossy :
    ∃ (v : JSValue) (m2 : CacheService.CacheMap),
      jsonSafe v = false ∧
      CacheService.set [] "k" v 300 0 = Except.ok m2 ∧
      (CacheService.get m2 "k" 0).1 ≠ some v := by
  refine ⟨JSValue.obj [("a", JSValue.num 1), ("b", JSValue.undef)],
    [(CacheService.namespacedKey "k",
      { value := JSValue.obj [("a", JSValue.num 1)], expiresAt := 300000 })],
    rfl, rfl, ?_⟩
  intro h
  have h0 : some (JSValue.obj [("a", JSValue.num 1)]) =
      some (JSValue.obj [("a", JSValue.num 1), ("b", JSValue.undef)]) := h
  injection h0 with h1
  injection h1 with h2
  injection h2 with h3 h4
  cases h4

end ScriptAssist
